import Mathlib

/-!
Verification development for the email-manager client core.

Shallow embedding of the TypeScript sources:
  - src/utils/errorHandler.ts (error classification, recovery policy, retry handling)
  - the auto-refresh scheduler hook (useAutoRefresh)
  - the email context fetch pipeline (classify, sort, merge read state) in its two
    revisions (alias-list mode and address-pattern mode)
  - the email forward identifier in its two revisions
  - the sub-email registry context (addSubEmail)
  - the auth context (isSessionValid, validateSession)

Strings are modelled with Lean String; JavaScript toLowerCase is modelled for the
ASCII range by an explicit 26-case character map, which is exact on the data this
application handles (ASCII email addresses and error messages).
-/

namespace EmailManager

/-- ASCII model of the JavaScript toLowerCase on one character. -/
def lowerChar (c : Char) : Char :=
  match c with
  | 'A' => 'a'
  | 'B' => 'b'
  | 'C' => 'c'
  | 'D' => 'd'
  | 'E' => 'e'
  | 'F' => 'f'
  | 'G' => 'g'
  | 'H' => 'h'
  | 'I' => 'i'
  | 'J' => 'j'
  | 'K' => 'k'
  | 'L' => 'l'
  | 'M' => 'm'
  | 'N' => 'n'
  | 'O' => 'o'
  | 'P' => 'p'
  | 'Q' => 'q'
  | 'R' => 'r'
  | 'S' => 's'
  | 'T' => 't'
  | 'U' => 'u'
  | 'V' => 'v'
  | 'W' => 'w'
  | 'X' => 'x'
  | 'Y' => 'y'
  | 'Z' => 'z'
  | other => other

/-- Model of the JavaScript String.prototype.toLowerCase (ASCII range). -/
def lowerStr (s : String) : String :=
  String.mk (s.toList.map lowerChar)

/-- Substring containment on character lists: true iff need occurs contiguously in hay.
Models the JavaScript String.prototype.includes. -/
def listIncludes (hay need : List Char) : Bool :=
  match hay with
  | [] => need.isEmpty
  | c :: rest => List.isPrefixOf need (c :: rest) || listIncludes rest need

/-- Model of the JavaScript s.includes(sub). -/
def strIncludes (s sub : String) : Bool :=
  listIncludes s.toList sub.toList

/-- Model of the JavaScript s.endsWith(suffix). -/
def strEndsWith (s sfx : String) : Bool :=
  List.isSuffixOf sfx.toList s.toList

end EmailManager

namespace EmailManager

/-! Embedding of src/utils/errorHandler.ts. -/

/-- Error type enumeration, from the ErrorType enum. -/
inductive ErrorType where
  | network
  | auth
  | server
  | validation
  | storage
  | unknown
deriving DecidableEq

/-- Recovery strategy record, from the RecoveryStrategy interface. The optional
fallbackAction field is modelled as a Bool flag recording whether the strategy
carries a callback: getRecoveryStrategy never sets one. -/
structure RecoveryStrategy where
  shouldRetry : Bool
  maxRetries : Nat
  retryDelay : Nat
deriving DecidableEq

/-- Embedding of ErrorHandler.classifyError: lowercase the message, then test the
keyword groups in source order with substring matching. -/
def classifyError (errMessage : String) : ErrorType :=
  let message := lowerStr errMessage
  if strIncludes message "network" || strIncludes message "timeout" ||
      strIncludes message "connection" || strIncludes message "dns" ||
      strIncludes message "fetch" then
    ErrorType.network
  else if strIncludes message "auth" || strIncludes message "login" ||
      strIncludes message "credential" || strIncludes message "token" ||
      strIncludes message "session" || strIncludes message "unauthorized" ||
      strIncludes message "401" then
    ErrorType.auth
  else if strIncludes message "server" || strIncludes message "imap" ||
      strIncludes message "smtp" || strIncludes message "500" ||
      strIncludes message "503" then
    ErrorType.server
  else if strIncludes message "validation" || strIncludes message "invalid" ||
      strIncludes message "format" || strIncludes message "parse" then
    ErrorType.validation
  else if strIncludes message "storage" || strIncludes message "disk" ||
      strIncludes message "permission" || strIncludes message "quota" then
    ErrorType.storage
  else
    ErrorType.unknown

/-- Embedding of ErrorHandler.getRecoveryStrategy. -/
def getRecoveryStrategy : ErrorType → RecoveryStrategy
  | ErrorType.network => { shouldRetry := true, maxRetries := 3, retryDelay := 1000 }
  | ErrorType.server => { shouldRetry := true, maxRetries := 3, retryDelay := 2000 }
  | ErrorType.auth => { shouldRetry := false, maxRetries := 0, retryDelay := 0 }
  | ErrorType.validation => { shouldRetry := false, maxRetries := 0, retryDelay := 0 }
  | ErrorType.storage => { shouldRetry := true, maxRetries := 2, retryDelay := 500 }
  | ErrorType.unknown => { shouldRetry := false, maxRetries := 0, retryDelay := 0 }

/-- Spec side: the keyword groups as an ordered table, in the priority order the
specification states (network, auth, server, validation, storage). -/
def keywordGroups : List (ErrorType × List String) :=
  [ (ErrorType.network, ["network", "timeout", "connection", "dns", "fetch"]),
    (ErrorType.auth, ["auth", "login", "credential", "token", "session", "unauthorized", "401"]),
    (ErrorType.server, ["server", "imap", "smtp", "500", "503"]),
    (ErrorType.validation, ["validation", "invalid", "format", "parse"]),
    (ErrorType.storage, ["storage", "disk", "permission", "quota"]) ]

/-- Spec side: first group whose keyword set matches wins, unknown when none does. -/
def classifyGroups (message : String) : List (ErrorType × List String) → ErrorType
  | [] => ErrorType.unknown
  | (kind, kws) :: rest =>
    if kws.any (fun kw => strIncludes message kw) then kind
    else classifyGroups message rest

/-- Spec side: classification by ordered keyword groups on the lowercased message. -/
def classifyByGroups (errMessage : String) : ErrorType :=
  classifyGroups (lowerStr errMessage) keywordGroups

/-- Retry counts keyed by context label. The source keeps a Map with absent keys
read back as 0 by getRetryCount, so a total function with default 0 is the same
observable state. -/
def RetryCounts : Type := String → Nat

/-- Observable outcome of one ErrorHandler.handle call: the retry counter state
afterwards, the delays of backoff timers scheduled by setTimeout during the call
(the timer callback runs the optional fallbackAction of the strategy, which
getRecoveryStrategy never sets), and whether the session was cleared. -/
structure HandleResult where
  retryCount : RetryCounts
  scheduled : List Nat
  sessionCleared : Bool

/-- Embedding of ErrorHandler.handleNetworkError and handleServerError, which share
the retry logic and differ only in the strategy looked up. -/
def handleRetryable (strategy : RecoveryStrategy) (counts : RetryCounts)
    (context : String) : HandleResult :=
  if strategy.shouldRetry then
    let retries := counts context
    if retries < strategy.maxRetries then
      { retryCount := fun c => if c = context then retries + 1 else counts c,
        scheduled := [strategy.retryDelay * 2 ^ retries],
        sessionCleared := false }
    else
      { retryCount := fun c => if c = context then 0 else counts c,
        scheduled := [],
        sessionCleared := false }
  else
    { retryCount := counts, scheduled := [], sessionCleared := false }

namespace ErrorHandler

/-- Embedding of ErrorHandler.handle. The logError step is fire-and-forget (its own
failures are swallowed inside logError), so it contributes nothing to the observable
state modelled here. handleAuthError clears the session; handleValidationError,
handleStorageError and handleUnknownError only log to the console. The function is
total: handle never throws to its caller. -/
def handle (counts : RetryCounts) (errMessage context : String) : HandleResult :=
  match classifyError errMessage with
  | ErrorType.network => handleRetryable (getRecoveryStrategy ErrorType.network) counts context
  | ErrorType.auth => { retryCount := counts, scheduled := [], sessionCleared := true }
  | ErrorType.server => handleRetryable (getRecoveryStrategy ErrorType.server) counts context
  | ErrorType.validation => { retryCount := counts, scheduled := [], sessionCleared := false }
  | ErrorType.storage => { retryCount := counts, scheduled := [], sessionCleared := false }
  | ErrorType.unknown => { retryCount := counts, scheduled := [], sessionCleared := false }

/-- Embedding of ErrorHandler.resetRetryCount. -/
def resetRetryCount (counts : RetryCounts) (context : String) : RetryCounts :=
  fun c => if c = context then 0 else counts c

/-- Embedding of ErrorHandler.getRetryCount. -/
def getRetryCount (counts : RetryCounts) (context : String) : Nat :=
  counts context

end ErrorHandler

/-- Post-condition asserted by the claim on one handle call: whenever the classified
kind has shouldRetry true and the current count is strictly below maxRetries, a retry
is scheduled with delay baseDelayMs times 2 to the attempt and the count increments;
otherwise the count for the context is cleared to 0. -/
def claimC2Post (counts : RetryCounts) (errMessage context : String)
    (r : HandleResult) : Prop :=
  let pol := getRecoveryStrategy (classifyError errMessage)
  (pol.shouldRetry = true ∧ counts context < pol.maxRetries →
    r.scheduled = [pol.retryDelay * 2 ^ counts context] ∧
    r.retryCount context = counts context + 1) ∧
  (¬ (pol.shouldRetry = true ∧ counts context < pol.maxRetries) →
    r.retryCount context = 0)

end EmailManager

namespace EmailManager

/-! Embedding of the useAutoRefresh hook (polling scheduler) as a discrete-time
simulation. One unit of simulated time is one millisecond. The refresh callback is
guarded by the isRefreshing flag: a tick that fires while a previous invocation is
still unresolved returns without calling the refresh action. The state tracks the
number of refresh-action invocations so far and the time at which the in-flight
invocation resolves (busyUntil less than or equal to the current time means idle). -/

structure SchedState where
  count : Nat
  busyUntil : Nat
deriving DecidableEq

/-- One instant of the scheduler: at time 0 the immediate invocation fires (when the
immediate flag is set), and at every positive multiple of the interval a timer tick
fires. A firing attempt is skipped, not queued, when a previous refresh is still in
flight; otherwise it invokes the refresh action, which stays busy for duration. -/
def schedStep (interval duration : Nat) (immediate : Bool) (s : SchedState)
    (t : Nat) : SchedState :=
  if (t == 0 && immediate) || (t != 0 && t % interval == 0) then
    if t < s.busyUntil then s
    else { count := s.count + 1, busyUntil := t + duration }
  else s

/-- Run the scheduler from construction through time t inclusive. -/
def runSched (interval duration : Nat) (immediate : Bool) : Nat → SchedState
  | 0 => schedStep interval duration immediate { count := 0, busyUntil := 0 } 0
  | Nat.succ t => schedStep interval duration immediate
      (runSched interval duration immediate t) (Nat.succ t)

end EmailManager

namespace EmailManager

/-! Embedding of the email data model and the two revisions of the email forward
identifier module. -/

/-- Email record, from the Email interface in email.types.ts. The fields named
from and to in the source are fromAddr and toAddr here because both words are
reserved in Lean. -/
structure Email where
  id : String
  fromAddr : String
  toAddr : String
  subject : String
  body : String
  timestamp : Nat
  isRead : Bool
  isSubEmailForwarded : Bool
  originalSubEmail : Option String
deriving DecidableEq

/-- Sub email status, from subEmail.types.ts. -/
inductive SubEmailStatus where
  | creating
  | active
  | failed
deriving DecidableEq

/-- Sub email record, from the SubEmail interface in subEmail.types.ts. -/
structure SubEmail where
  address : String
  suffix : String
  createdAt : Nat
  status : SubEmailStatus
deriving DecidableEq

namespace ForwardByList

/-- Embedding of identifyForwardedEmails in the alias-list revision: an email is
forwarded iff its lowercased recipient address is in the set of lowercased sub
email addresses. -/
def identifyForwardedEmails (emails : List Email) (subEmails : List SubEmail) :
    List Email :=
  let subEmailAddresses := subEmails.map (fun se => lowerStr se.address)
  emails.map (fun email =>
    if subEmailAddresses.contains (lowerStr email.toAddr) then
      { email with isSubEmailForwarded := true, originalSubEmail := some email.toAddr }
    else
      { email with isSubEmailForwarded := false, originalSubEmail := none })

/-- Embedding of isEmailForwarded in the alias-list revision. -/
def isEmailForwarded (email : Email) (subEmails : List SubEmail) : Bool :=
  (subEmails.map (fun se => lowerStr se.address)).contains (lowerStr email.toAddr)

end ForwardByList

namespace ForwardByPattern

/-- Characters accepted by the alternation a-z0-9 of the extraction pattern under
the case-insensitive flag. -/
def isAlnumAscii (c : Char) : Bool :=
  c.isAlpha || c.isDigit

/-- Embedding of extractBaseUsername in the pattern revision. The source takes the
substring before the first at sign, rejects a missing at sign or an empty local
part, then matches the local part against an anchored case-insensitive pattern of
alphanumerics with an optional trailing letter block; the greedy first group always
captures the whole local part, so the match succeeds exactly when the local part is
entirely ASCII alphanumeric, and the result is the lowercased local part. -/
def extractBaseUsername (email : String) : Option String :=
  let cs := email.toList
  if cs.contains '@' then
    let username := cs.takeWhile (fun c => c ≠ '@')
    if username.isEmpty then none
    else if username.all isAlnumAscii then some (String.mk (username.map lowerChar))
    else none
  else none

/-- Embedding of isSubEmailFormat in the pattern revision: the lowercased address
must end with the fixed domain suffix, its local part (up to the first at sign)
must start with the lowercased base username, and the local part must be strictly
longer than the base username. -/
def isSubEmailFormat (email : String) (baseUsername : String) : Bool :=
  let emailLower := lowerStr email
  if strEndsWith emailLower "@2925.com" then
    let username := emailLower.toList.takeWhile (fun c => c ≠ '@')
    if List.isPrefixOf (lowerStr baseUsername).toList username then
      decide (baseUsername.toList.length < username.length)
    else false
  else false

/-- Embedding of isEmailForwarded in the pattern revision, specialised to a pair of
address strings: the forwarded test applied to a candidate recipient address given
the main account address. -/
def patternMatches (candidate mainEmail : String) : Bool :=
  match extractBaseUsername mainEmail with
  | none => false
  | some baseUsername => isSubEmailFormat candidate baseUsername

/-- Embedding of identifyForwardedEmails in the pattern revision. -/
def identifyForwardedEmails (emails : List Email) (mainEmail : String) :
    List Email :=
  match extractBaseUsername mainEmail with
  | none => emails.map (fun email =>
      { email with isSubEmailForwarded := false, originalSubEmail := none })
  | some baseUsername => emails.map (fun email =>
      if isSubEmailFormat (lowerStr email.toAddr) baseUsername then
        { email with isSubEmailForwarded := true, originalSubEmail := some email.toAddr }
      else
        { email with isSubEmailForwarded := false, originalSubEmail := none })

end ForwardByPattern

/-- A sample email used by concrete instances. -/
def sampleEmail (i toA : String) (ts : Nat) (read : Bool) : Email :=
  { id := i, fromAddr := "sender@example.com", toAddr := toA, subject := "s",
    body := "b", timestamp := ts, isRead := read, isSubEmailForwarded := false,
    originalSubEmail := none }

/-- Matching relation asserted by the amended claim on the pattern-mode helper:
the base address must have a local part (before the first at sign) that is
nonempty and entirely ASCII alphanumeric, the candidate must have the fixed domain
2925.com (case-insensitive), and the candidate local part must start with and be
strictly longer than the base local part, compared case-insensitively. -/
def claimC6AmendedMatch (candidate base : String) : Bool :=
  match ForwardByPattern.extractBaseUsername base with
  | none => false
  | some bu =>
    strEndsWith (lowerStr candidate) "@2925.com" &&
    List.isPrefixOf (lowerStr bu).toList
      ((lowerStr candidate).toList.takeWhile (fun c => c ≠ '@')) &&
    decide (bu.toList.length
      < ((lowerStr candidate).toList.takeWhile (fun c => c ≠ '@')).length)

/-- Matching relation asserted by the claim on the pattern-mode helper: same domain
as the base account compared case-insensitively, candidate local part starts with
the base local part, and the candidate local part is strictly longer. Local parts
and domains are split at the first at sign; a missing at sign or an empty local
part is malformed and never matches. -/
def claimC6Match (candidate base : String) : Bool :=
  let cc := (lowerStr candidate).toList
  let bc := (lowerStr base).toList
  if cc.contains '@' && bc.contains '@' then
    let cLocal := cc.takeWhile (fun c => c ≠ '@')
    let bLocal := bc.takeWhile (fun c => c ≠ '@')
    let cDomain := cc.drop (cLocal.length + 1)
    let bDomain := bc.drop (bLocal.length + 1)
    (!cLocal.isEmpty) && (!bLocal.isEmpty) && cDomain == bDomain &&
      List.isPrefixOf bLocal cLocal && decide (bLocal.length < cLocal.length)
  else false

end EmailManager

namespace EmailManager

/-! Embedding of the email context (fetchEmails, markAsRead) in its two revisions.
Both revisions share the same sort, merge and failure logic and differ only in the
classification step. The remote fetch port is a parameter: a fetch outcome is either
a list of emails or an error message. -/

/-- Emails state, from the EmailsState interface in app.types.ts. -/
structure EmailsState where
  list : List Email
  loading : Bool
  lastFetchTime : Nat
  error : Option String
deriving DecidableEq

/-- Stable insertion into a descending-by-timestamp list: the inserted email goes
before the first strictly older element and after all at least as recent ones. -/
def insertDesc (e : Email) : List Email → List Email
  | [] => [e]
  | x :: xs => if x.timestamp < e.timestamp then e :: x :: xs else x :: insertDesc e xs

/-- Sort by timestamp descending, most recent first, as the comparator that
subtracts timestamps does. The JavaScript sort is a stable sort; a stable insertion
sort realises the same observable contract and is kernel-computable. -/
def sortByTimestampDesc (emails : List Email) : List Email :=
  emails.foldr insertDesc []

/-- The set of ids of the locally read emails of a list: the readEmailIds value the
merge block of fetchEmails builds from the previous list. -/
def readSet (l : List Email) : List String :=
  (l.filter (fun email => email.isRead)).map (fun email => email.id)

/-- The merge block of fetchEmails: collect the ids of the locally read emails of
the previous list, then force the read flag on any fetched email with such an id. -/
def mergeRead (prevList : List Email) (emails : List Email) : List Email :=
  emails.map (fun email =>
    { email with
      isRead := if (readSet prevList).contains email.id then true else email.isRead })

/-- Classification step of the pattern revision of fetchEmails: the main email is
optional and, as a JavaScript truthiness test, the empty string also skips the
classification. -/
def classifyStepPattern (mainEmail : Option String) (emails : List Email) :
    List Email :=
  match mainEmail with
  | none => emails
  | some me =>
    if me.toList.isEmpty then emails
    else ForwardByPattern.identifyForwardedEmails emails me

/-- Classification step of the alias-list revision of fetchEmails: skipped when the
sub email list is absent or empty. -/
def classifyStepList (subEmails : Option (List SubEmail)) (emails : List Email) :
    List Email :=
  match subEmails with
  | none => emails
  | some subs =>
    if subs.isEmpty then emails
    else ForwardByList.identifyForwardedEmails emails subs

/-- The successful path of fetchEmails in the pattern revision: classify, sort by
timestamp descending, merge the local read state of the previous list. -/
def fetchPipelinePattern (prevList : List Email) (fetched : List Email)
    (mainEmail : Option String) : List Email :=
  mergeRead prevList (sortByTimestampDesc (classifyStepPattern mainEmail fetched))

/-- The successful path of fetchEmails in the alias-list revision. -/
def fetchPipelineList (prevList : List Email) (fetched : List Email)
    (subEmails : Option (List SubEmail)) : List Email :=
  mergeRead prevList (sortByTimestampDesc (classifyStepList subEmails fetched))

/-- Embedding of fetchEmails in the pattern revision, at the state level. The fetch
outcome of the remote port and the current time are parameters. On success the new
state carries the merged list, loading false, the fetch time and no error. On
failure the catch block sets loading false and the error message on the otherwise
unchanged state and rethrows, modelled by the returned Except value. -/
def fetchEmailsPattern (st : EmailsState) (mainEmail : Option String)
    (fetchResult : Except String (List Email)) (now : Nat) :
    EmailsState × Except String Unit :=
  match fetchResult with
  | Except.error msg =>
    ({ st with loading := false, error := some msg }, Except.error msg)
  | Except.ok fetched =>
    ({ list := fetchPipelinePattern st.list fetched mainEmail,
       loading := false,
       lastFetchTime := now,
       error := none }, Except.ok ())

/-- Embedding of fetchEmails in the alias-list revision, at the state level. -/
def fetchEmailsList (st : EmailsState) (subEmails : Option (List SubEmail))
    (fetchResult : Except String (List Email)) (now : Nat) :
    EmailsState × Except String Unit :=
  match fetchResult with
  | Except.error msg =>
    ({ st with loading := false, error := some msg }, Except.error msg)
  | Except.ok fetched =>
    ({ list := fetchPipelineList st.list fetched subEmails,
       loading := false,
       lastFetchTime := now,
       error := none }, Except.ok ())

/-- Embedding of markAsRead: optimistic local mutation setting the read flag of the
email with the given id. -/
def markAsRead (st : EmailsState) (emailId : String) : EmailsState :=
  { st with list := st.list.map (fun email =>
      if email.id = emailId then { email with isRead := true } else email) }

end EmailManager

namespace EmailManager

/-! Embedding of the sub email registry context (SubEmailContext.tsx). -/

/-- Sub email registry state, from the SubEmailState interface. -/
structure SubEmailsState where
  list : List SubEmail
  loading : Bool
  error : Option String
deriving DecidableEq

/-- The duplicate-entry message thrown by addSubEmail. -/
def duplicateSubEmailMsg : String := "子邮箱已存在"

/-- Embedding of addSubEmail. The outcome of the persistence save step is a
parameter: what saveToStorage would return when called with the updated list. When
the address already exists (exact, case-sensitive comparison) the call throws the
duplicate message and the catch block records it in the error field without
touching the list. Otherwise the list is persisted first; only when the save step
succeeds is the in-memory list replaced. -/
def addSubEmail (st : SubEmailsState) (subEmail : SubEmail)
    (saveOutcome : Except String Unit) : SubEmailsState × Except String Unit :=
  if st.list.any (fun se => se.address = subEmail.address) then
    ({ st with error := some duplicateSubEmailMsg }, Except.error duplicateSubEmailMsg)
  else
    let updatedList := st.list ++ [subEmail]
    match saveOutcome with
    | Except.error msg => ({ st with error := some msg }, Except.error msg)
    | Except.ok _ =>
      ({ st with list := updatedList, error := none }, Except.ok ())

end EmailManager

namespace EmailManager

/-! Embedding of the auth context (isSessionValid, validateSession). -/

/-- Auth session record, from auth.types.ts: account email, opaque token, expiry
timestamp in epoch milliseconds. -/
structure AuthSession where
  email : String
  token : String
  expiresAt : Nat
deriving DecidableEq

/-- Auth state, from the AuthState interface in app.types.ts. -/
structure AuthState where
  isAuthenticated : Bool
  session : Option AuthSession
  loading : Bool
  error : Option String
deriving DecidableEq

/-- The expiry message set by validateSession when the session is stale. -/
def sessionExpiredMsg : String := "会话已过期，请重新登录"

/-- Embedding of isSessionValid: a pure comparison of the current time against the
cached expiry. -/
def isSessionValid (now : Nat) (session : Option AuthSession) : Bool :=
  match session with
  | none => false
  | some s => decide (now < s.expiresAt)

/-- Embedding of validateSession: no remote call is made. With no cached session it
returns false and leaves the state alone. With a cached session it returns the pure
time comparison; when that fails it clears the session state as a side effect. -/
def validateSession (now : Nat) (st : AuthState) : Bool × AuthState :=
  match st.session with
  | none => (false, st)
  | some s =>
    if isSessionValid now (some s) then (true, st)
    else
      (false,
        { isAuthenticated := false,
          session := none,
          loading := false,
          error := some sessionExpiredMsg })

end EmailManager

namespace EmailManager

/-! Theorems. -/

set_option maxRecDepth 4000

/-- C1: every error message whose lowercasing contains one of the network keywords
classifies as network; classification evaluates the keyword groups in the fixed
priority order network, auth, server, validation, storage, returning the first
group with a matching keyword and unknown when none matches; in particular the
message "auth timeout" classifies as network. -/
theorem classifyError_network_priority :
    (∀ m, (["network", "timeout", "connection", "dns", "fetch"].any
        (fun kw => strIncludes (lowerStr m) kw)) = true →
      classifyError m = ErrorType.network)
    ∧ (∀ m, classifyError m = classifyByGroups m)
    ∧ classifyError "auth timeout" = ErrorType.network := by
  refine ⟨?_, ?_, ?_⟩
  · intro m h
    simp only [List.any_cons, List.any_nil, Bool.or_false] at h
    simp only [classifyError, Bool.or_assoc]
    rw [if_pos h]
  · intro m
    simp only [classifyError, classifyByGroups, classifyGroups, keywordGroups,
      List.any_cons, List.any_nil, Bool.or_false, Bool.or_assoc]
  · decide

/-- Witness for C1 at a concrete input. -/
theorem classifyError_network_priority_witness :
    classifyError "dns lookup failed" = ErrorType.network :=
  classifyError_network_priority.1 "dns lookup failed" (by decide)

/-- C3: with interval 100, an immediate first invocation and a refresh action that
stays busy for 300 time units, exactly one invocation has occurred after 250 time
units; moreover any firing instant that falls while a previous invocation is still
unresolved leaves the scheduler state unchanged (the tick is skipped, not queued). -/
theorem useAutoRefresh_no_overlap :
    (runSched 100 300 true 250).count = 1
    ∧ ∀ interval duration immediate s t, t < s.busyUntil →
        schedStep interval duration immediate s t = s := by
  constructor
  · decide
  · intro interval duration immediate s t h
    simp [schedStep, h]

/-- Witness for C3 at a concrete input: the tick at time 100 during a refresh that
resolves at time 300 is a no-op. -/
theorem useAutoRefresh_no_overlap_witness :
    schedStep 100 300 true { count := 1, busyUntil := 300 } 100
      = { count := 1, busyUntil := 300 } :=
  useAutoRefresh_no_overlap.2 100 300 true { count := 1, busyUntil := 300 } 100
    (by decide)

/-- C9: validateSession is a pure time comparison against the cached expiry. With a
cached session whose expiry is not in the future it returns false and clears the
session state (session absent, authenticated flag false); with an expiry in the
future it returns true and leaves the state untouched. -/
theorem validateSession_spec :
    ∀ (now : Nat) (st : AuthState) (s : AuthSession), st.session = some s →
      (s.expiresAt ≤ now →
        validateSession now st
          = (false, { isAuthenticated := false, session := none, loading := false,
                      error := some sessionExpiredMsg }))
      ∧ (now < s.expiresAt → validateSession now st = (true, st)) := by
  intro now st s hs
  constructor
  · intro h
    simp [validateSession, isSessionValid, hs, Nat.not_lt.mpr h]
  · intro h
    simp [validateSession, isSessionValid, hs, h]

/-- Witness for C9 at concrete inputs: expiry now minus one is rejected and clears
the state, expiry now plus 100000 is accepted and preserves the state. -/
theorem validateSession_spec_witness :
    validateSession 1000
        { isAuthenticated := true,
          session := some { email := "user@2925.com", token := "t", expiresAt := 999 },
          loading := false, error := none }
      = (false, { isAuthenticated := false, session := none, loading := false,
                  error := some sessionExpiredMsg })
    ∧ validateSession 1000
        { isAuthenticated := true,
          session := some { email := "user@2925.com", token := "t", expiresAt := 101000 },
          loading := false, error := none }
      = (true, { isAuthenticated := true,
                 session := some { email := "user@2925.com", token := "t",
                                   expiresAt := 101000 },
                 loading := false, error := none }) := by
  constructor
  · exact (validateSession_spec 1000
      { isAuthenticated := true,
        session := some { email := "user@2925.com", token := "t", expiresAt := 999 },
        loading := false, error := none }
      { email := "user@2925.com", token := "t", expiresAt := 999 } rfl).1 (by decide)
  · exact (validateSession_spec 1000
      { isAuthenticated := true,
        session := some { email := "user@2925.com", token := "t", expiresAt := 101000 },
        loading := false, error := none }
      { email := "user@2925.com", token := "t", expiresAt := 101000 } rfl).2 (by decide)

/-- C10: when the remote fetch port rejects, fetchEmails rethrows the error; the
visible email list and lastFetchTime are exactly what they were before the call and
only the loading flag (false) and the error string (the failure message) change.
Both revisions of the email context behave alike. -/
theorem fetchEmails_error_frame :
    ∀ (st : EmailsState) (msg : String) (now : Nat),
      (∀ mainEmail,
        (fetchEmailsPattern st mainEmail (Except.error msg) now).1.list = st.list
        ∧ (fetchEmailsPattern st mainEmail (Except.error msg) now).1.lastFetchTime
            = st.lastFetchTime
        ∧ (fetchEmailsPattern st mainEmail (Except.error msg) now).1.loading = false
        ∧ (fetchEmailsPattern st mainEmail (Except.error msg) now).1.error = some msg
        ∧ (fetchEmailsPattern st mainEmail (Except.error msg) now).2
            = Except.error msg)
      ∧ (∀ subEmails,
        (fetchEmailsList st subEmails (Except.error msg) now).1.list = st.list
        ∧ (fetchEmailsList st subEmails (Except.error msg) now).1.lastFetchTime
            = st.lastFetchTime
        ∧ (fetchEmailsList st subEmails (Except.error msg) now).1.loading = false
        ∧ (fetchEmailsList st subEmails (Except.error msg) now).1.error = some msg
        ∧ (fetchEmailsList st subEmails (Except.error msg) now).2
            = Except.error msg) := by
  intro st msg now
  constructor
  · intro mainEmail
    simp [fetchEmailsPattern]
  · intro subEmails
    simp [fetchEmailsList]

end EmailManager


namespace EmailManager

/-- C2 counterexample: a storage-kind error (message "disk full") on a context whose
retry count is 1 refutes the claimed post-condition. The storage policy has
shouldRetry true and maxRetries 2, so the claim demands a scheduled backoff and an
increment to 2, but handleStorageError only logs a console fallback: nothing is
scheduled and the count stays 1. -/
theorem handle_claim_counterexample :
    ¬ claimC2Post (fun c => if c = "saveSession" then 1 else 0) "disk full"
      "saveSession"
      (ErrorHandler.handle (fun c => if c = "saveSession" then 1 else 0) "disk full"
        "saveSession") := by
  intro h
  have := h.1 (by constructor <;> decide)
  exact absurd this.1 (by decide)

/-- C2 amended: handle classifies the error; for the kinds network and server, when
the current count is strictly below the maxRetries of the policy it schedules one
backoff timer with delay baseDelayMs times 2 to the current count and increments
the count for the context, and otherwise clears the count for the context to 0,
leaving other contexts alone in both cases; for the kinds storage, auth, validation
and unknown no timer is scheduled and the retry counts are left entirely unchanged
(storage included, although its policy is marked retryable); the session is cleared
exactly for auth-kind errors; handle is total and never throws to its caller. -/
theorem handle_retry_behavior (counts : RetryCounts) (m ctx : String) :
    ((classifyError m = ErrorType.network ∨ classifyError m = ErrorType.server) →
      (counts ctx < (getRecoveryStrategy (classifyError m)).maxRetries →
        (ErrorHandler.handle counts m ctx).scheduled
          = [(getRecoveryStrategy (classifyError m)).retryDelay * 2 ^ counts ctx]
        ∧ (ErrorHandler.handle counts m ctx).retryCount ctx = counts ctx + 1
        ∧ ∀ c, c ≠ ctx → (ErrorHandler.handle counts m ctx).retryCount c = counts c)
      ∧ ((getRecoveryStrategy (classifyError m)).maxRetries ≤ counts ctx →
        (ErrorHandler.handle counts m ctx).scheduled = []
        ∧ (ErrorHandler.handle counts m ctx).retryCount ctx = 0
        ∧ ∀ c, c ≠ ctx → (ErrorHandler.handle counts m ctx).retryCount c = counts c))
    ∧ ((classifyError m = ErrorType.auth ∨ classifyError m = ErrorType.validation ∨
          classifyError m = ErrorType.storage ∨ classifyError m = ErrorType.unknown) →
        (ErrorHandler.handle counts m ctx).scheduled = []
        ∧ (ErrorHandler.handle counts m ctx).retryCount = counts)
    ∧ ((ErrorHandler.handle counts m ctx).sessionCleared = true ↔
        classifyError m = ErrorType.auth) := by
  refine ⟨?_, ?_, ?_⟩
  · intro hk
    have hh : ErrorHandler.handle counts m ctx
        = handleRetryable (getRecoveryStrategy (classifyError m)) counts ctx := by
      rcases hk with h | h <;> rw [ErrorHandler.handle, h]
    have hsr : (getRecoveryStrategy (classifyError m)).shouldRetry = true := by
      rcases hk with h | h <;> rw [h] <;> rfl
    rw [hh]
    constructor
    · intro hcnt
      simp only [handleRetryable, hsr, if_true]
      rw [if_pos hcnt]
      refine ⟨rfl, by simp, ?_⟩
      intro c hc
      simp [hc]
    · intro hge
      simp only [handleRetryable, hsr, if_true]
      rw [if_neg (Nat.not_lt.mpr hge)]
      refine ⟨rfl, by simp, ?_⟩
      intro c hc
      simp [hc]
  · rintro (h | h | h | h) <;> rw [ErrorHandler.handle, h] <;> exact ⟨rfl, rfl⟩
  · cases hcl : classifyError m <;>
      rw [ErrorHandler.handle, hcl] <;>
        simp [handleRetryable, getRecoveryStrategy] <;>
          split <;> simp

/-- Witness for C2 amended at concrete inputs: a first network failure on context
fetchEmails schedules one timer and sets the count to 1. -/
theorem handle_retry_behavior_witness :
    (ErrorHandler.handle (fun _ => 0) "connection refused" "fetchEmails").retryCount
        "fetchEmails" = 0 + 1
    ∧ (ErrorHandler.handle (fun _ => 0) "connection refused" "fetchEmails").scheduled
        = [(getRecoveryStrategy (classifyError "connection refused")).retryDelay
            * 2 ^ 0] := by
  have h := ((handle_retry_behavior (fun _ => 0) "connection refused"
    "fetchEmails").1 (Or.inl (by decide))).1 (by decide)
  exact ⟨h.2.1, h.1⟩

end EmailManager

namespace EmailManager

/-- C8: adding a sub email whose address already exists (exact, case-sensitive
comparison) rejects with the duplicate-entry error and leaves the in-memory list
identical; and whenever the persistence save step rejects, the in-memory list is
likewise unchanged (persist-before-commit atomicity). -/
theorem addSubEmail_atomic :
    ∀ (st : SubEmailsState) (subEmail : SubEmail) (saveOutcome : Except String Unit),
      (st.list.any (fun se => se.address = subEmail.address) = true →
        (addSubEmail st subEmail saveOutcome).1.list = st.list
        ∧ (addSubEmail st subEmail saveOutcome).2
            = Except.error duplicateSubEmailMsg)
      ∧ (∀ msg, saveOutcome = Except.error msg →
        (addSubEmail st subEmail saveOutcome).1.list = st.list) := by
  intro st subEmail saveOutcome
  constructor
  · intro h
    simp [addSubEmail, h]
  · intro msg hmsg
    by_cases hd : st.list.any (fun se => se.address = subEmail.address) = true
    · simp [addSubEmail, hd]
    · simp only [addSubEmail, hmsg]
      rw [if_neg hd]

/-- Witness for C8 at concrete inputs: adding an alias with an address already in
the registry fails with the duplicate message and keeps the list, and an add whose
save step rejects keeps the list. -/
theorem addSubEmail_atomic_witness :
    (addSubEmail
        { list := [{ address := "userA@2925.com", suffix := "A", createdAt := 0,
                     status := SubEmailStatus.active }],
          loading := false, error := none }
        { address := "userA@2925.com", suffix := "A", createdAt := 5,
          status := SubEmailStatus.creating }
        (Except.ok ())).1.list
      = [{ address := "userA@2925.com", suffix := "A", createdAt := 0,
           status := SubEmailStatus.active }]
    ∧ (addSubEmail
        { list := [{ address := "userA@2925.com", suffix := "A", createdAt := 0,
                     status := SubEmailStatus.active }],
          loading := false, error := none }
        { address := "userB@2925.com", suffix := "B", createdAt := 5,
          status := SubEmailStatus.creating }
        (Except.error "storage quota exceeded")).1.list
      = [{ address := "userA@2925.com", suffix := "A", createdAt := 0,
           status := SubEmailStatus.active }] := by
  constructor
  · exact ((addSubEmail_atomic
      { list := [{ address := "userA@2925.com", suffix := "A", createdAt := 0,
                   status := SubEmailStatus.active }],
        loading := false, error := none }
      { address := "userA@2925.com", suffix := "A", createdAt := 5,
        status := SubEmailStatus.creating }
      (Except.ok ())).1 (by decide)).1
  · exact (addSubEmail_atomic
      { list := [{ address := "userA@2925.com", suffix := "A", createdAt := 0,
                   status := SubEmailStatus.active }],
        loading := false, error := none }
      { address := "userB@2925.com", suffix := "B", createdAt := 5,
        status := SubEmailStatus.creating }
      (Except.error "storage quota exceeded")).2 "storage quota exceeded" rfl

end EmailManager

namespace EmailManager

/-- Membership in the read-id set of a list. -/
theorem mem_readSet {l : List Email} {x : String} :
    x ∈ readSet l ↔ ∃ e ∈ l, e.id = x ∧ e.isRead = true := by
  simp only [readSet, List.mem_map, List.mem_filter]
  constructor
  · rintro ⟨e, ⟨he, hr⟩, rfl⟩
    exact ⟨e, he, rfl, hr⟩
  · rintro ⟨e, he, rfl, hr⟩
    exact ⟨e, ⟨he, hr⟩, rfl⟩

/-- The merge step forces the read flag on every fetched email whose id was read in
the previous list. -/
theorem mergeRead_forces_read (prevList emails : List Email) (x : String)
    (hx : ∃ e ∈ prevList, e.id = x ∧ e.isRead = true) :
    ∀ y ∈ mergeRead prevList emails, y.id = x → y.isRead = true := by
  intro y hy hyx
  simp only [mergeRead, List.mem_map] at hy
  obtain ⟨a, _, rfl⟩ := hy
  have hmem : a.id ∈ readSet prevList := by
    apply mem_readSet.mpr
    obtain ⟨e, he, hid, hr⟩ := hx
    exact ⟨e, he, by rw [hid]; exact hyx.symm, hr⟩
  show (if (readSet prevList).contains a.id then true else a.isRead) = true
  rw [if_pos (List.elem_iff.mpr hmem)]

/-- C4: if an item with id x is marked read in the current visible list via
markAsRead, then after a refresh in which the remote source reports it unread, the
item is still read in the resulting visible list; this holds for all items, all
fetched lists and both revisions of the pipeline. -/
theorem readState_monotonic :
    ∀ (st : EmailsState) (fetched : List Email) (x : String),
      (∃ e ∈ st.list, e.id = x) →
      (∀ mainEmail,
        ∀ y ∈ fetchPipelinePattern (markAsRead st x).list fetched mainEmail,
          y.id = x → y.isRead = true)
      ∧ (∀ subEmails,
        ∀ y ∈ fetchPipelineList (markAsRead st x).list fetched subEmails,
          y.id = x → y.isRead = true) := by
  intro st fetched x hx
  have hexists : ∃ u ∈ (markAsRead st x).list, u.id = x ∧ u.isRead = true := by
    obtain ⟨e, he, hid⟩ := hx
    refine ⟨{ e with isRead := true }, ?_, hid, rfl⟩
    simp only [markAsRead, List.mem_map]
    exact ⟨e, he, by rw [if_pos hid]⟩
  constructor
  · intro me y hy hyx
    simp only [fetchPipelinePattern] at hy
    exact mergeRead_forces_read _ _ x hexists y hy hyx
  · intro subs y hy hyx
    simp only [fetchPipelineList] at hy
    exact mergeRead_forces_read _ _ x hexists y hy hyx

/-- Witness for C4 at a concrete input: id 1 marked read locally, reported unread by
the remote fetch, is still read after the pipeline. -/
theorem readState_monotonic_witness :
    ({ sampleEmail "1" "user@2925.com" 10 false with isRead := true } : Email).isRead
      = true :=
  (readState_monotonic
      { list := [sampleEmail "1" "user@2925.com" 10 false], loading := false,
        lastFetchTime := 0, error := none }
      [sampleEmail "1" "user@2925.com" 10 false] "1"
      ⟨sampleEmail "1" "user@2925.com" 10 false, by decide, rfl⟩).1 none
    { sampleEmail "1" "user@2925.com" 10 false with isRead := true }
    (by decide) rfl

end EmailManager

namespace EmailManager

/-- Insertion produces a permutation of consing. -/
theorem insertDesc_perm (e : Email) (l : List Email) :
    (insertDesc e l).Perm (e :: l) := by
  induction l with
  | nil => exact List.Perm.refl _
  | cons x xs ih =>
    simp only [insertDesc]
    split
    · exact List.Perm.refl _
    · exact (ih.cons x).trans (List.Perm.swap e x xs)

/-- The sort step is a permutation of its input. -/
theorem sortByTimestampDesc_perm (l : List Email) :
    (sortByTimestampDesc l).Perm l := by
  induction l with
  | nil => exact List.Perm.refl _
  | cons x xs ih =>
    simp only [sortByTimestampDesc, List.foldr_cons] at *
    exact (insertDesc_perm x _).trans (ih.cons x)

/-- The classification step of the pattern revision never changes the ids. -/
theorem classifyStepPattern_map_id (me : Option String) (l : List Email) :
    (classifyStepPattern me l).map (fun e => e.id) = l.map (fun e => e.id) := by
  cases me with
  | none => rfl
  | some m =>
    simp only [classifyStepPattern]
    split
    · rfl
    · simp only [ForwardByPattern.identifyForwardedEmails]
      split
      · rw [List.map_map]
        apply List.map_congr_left
        intro e _
        rfl
      · rw [List.map_map]
        apply List.map_congr_left
        intro e _
        simp only [Function.comp]
        split <;> rfl

/-- Merging twice against the same fetched list changes nothing the second time,
provided the fetched ids are distinct. -/
theorem mergeRead_idem (prevList s : List Email)
    (hnd : (s.map (fun e => e.id)).Nodup) :
    mergeRead (mergeRead prevList s) s = mergeRead prevList s := by
  simp only [mergeRead]
  apply List.map_congr_left
  intro e he
  have key : ((readSet (List.map (fun email =>
        { email with
          isRead := if (readSet prevList).contains email.id then true
            else email.isRead }) s)).contains e.id = true)
      ↔ ((readSet prevList).contains e.id = true ∨ e.isRead = true) := by
    rw [List.elem_iff]
    rw [mem_readSet]
    constructor
    · rintro ⟨u, hu, huid, hur⟩
      obtain ⟨v, hv, rfl⟩ := List.mem_map.mp hu
      have hveq : v = e := by
        apply List.inj_on_of_nodup_map hnd hv he
        exact huid
      subst hveq
      by_cases h0 : (readSet prevList).contains v.id = true
      · exact Or.inl h0
      · refine Or.inr ?_
        have : (if (readSet prevList).contains v.id then true else v.isRead)
            = true := hur
        rwa [if_neg h0] at this
    · intro h
      refine ⟨{ e with
          isRead := if (readSet prevList).contains e.id then true
            else e.isRead }, List.mem_map.mpr ⟨e, he, rfl⟩, rfl, ?_⟩
      rcases h with h | h
      · show (if (readSet prevList).contains e.id then true else e.isRead) = true
        rw [if_pos h]
      · show (if (readSet prevList).contains e.id then true else e.isRead) = true
        split
        · rfl
        · exact h
  have hXY : (if (readSet (List.map (fun email =>
        { email with
          isRead := if (readSet prevList).contains email.id then true
            else email.isRead }) s)).contains e.id then true else e.isRead)
      = (if (readSet prevList).contains e.id then true else e.isRead) := by
    by_cases h0 : (readSet prevList).contains e.id = true
    · rw [if_pos (key.mpr (Or.inl h0)), if_pos h0]
    · by_cases hr : e.isRead = true
      · rw [if_pos (key.mpr (Or.inr hr)), if_neg h0, hr]
      · rw [if_neg (fun hc => (key.mp hc).elim h0 hr), if_neg h0]
  exact congrArg (fun b => { e with isRead := b }) hXY

/-- C5: running the fetch-classify-sort-merge pipeline twice with the same remote
fetch result and no local mutation in between yields the same visible list after
the second run as after the first, identical in content and order: one application
is a fixed point of a second. The remote items carry distinct ids, as the data
model requires. -/
theorem fetchPipeline_idempotent :
    ∀ (prevList fetched : List Email) (mainEmail : Option String),
      (fetched.map (fun e => e.id)).Nodup →
      fetchPipelinePattern (fetchPipelinePattern prevList fetched mainEmail)
          fetched mainEmail
        = fetchPipelinePattern prevList fetched mainEmail := by
  intro prevList fetched me hnd
  simp only [fetchPipelinePattern]
  apply mergeRead_idem
  have h2 := (sortByTimestampDesc_perm (classifyStepPattern me fetched)).map
    (fun e => e.id)
  rw [classifyStepPattern_map_id] at h2
  exact h2.nodup_iff.mpr hnd

/-- Witness for C5 at a concrete input: two emails with distinct ids, one already
read locally, refetched twice. -/
theorem fetchPipeline_idempotent_witness :
    fetchPipelinePattern
        (fetchPipelinePattern [sampleEmail "1" "user@2925.com" 10 true]
          [sampleEmail "1" "user@2925.com" 10 false,
            sampleEmail "2" "userX@2925.com" 20 false] (some "user@2925.com"))
        [sampleEmail "1" "user@2925.com" 10 false,
          sampleEmail "2" "userX@2925.com" 20 false] (some "user@2925.com")
      = fetchPipelinePattern [sampleEmail "1" "user@2925.com" 10 true]
          [sampleEmail "1" "user@2925.com" 10 false,
            sampleEmail "2" "userX@2925.com" 20 false] (some "user@2925.com") :=
  fetchPipeline_idempotent [sampleEmail "1" "user@2925.com" 10 true]
    [sampleEmail "1" "user@2925.com" 10 false,
      sampleEmail "2" "userX@2925.com" 20 false] (some "user@2925.com")
    (by decide)

end EmailManager

namespace EmailManager

/-- C7: in the alias-list mode, an email is classified as forwarded, with
originalSubEmail set to its destination, exactly when its destination address
equals some alias address under case-insensitive comparison; in particular the
destination USERABC at 2925.COM is forwarded when the alias userABC at 2925.com
exists, an address of a different base account is never forwarded, and the listed
scenario fetch produces the expected classification. -/
theorem identifyForwardedEmails_list_spec :
    (∀ (emails : List Email) (subEmails : List SubEmail),
      ∀ y ∈ ForwardByList.identifyForwardedEmails emails subEmails,
        (y.isSubEmailForwarded = true ↔
          ∃ s ∈ subEmails, lowerStr s.address = lowerStr y.toAddr)
        ∧ (y.isSubEmailForwarded = true → y.originalSubEmail = some y.toAddr)
        ∧ (y.isSubEmailForwarded = false → y.originalSubEmail = none))
    ∧ ForwardByList.isEmailForwarded (sampleEmail "1" "USERABC@2925.COM" 0 false)
        [{ address := "userABC@2925.com", suffix := "ABC", createdAt := 0,
           status := SubEmailStatus.active }] = true
    ∧ ForwardByList.isEmailForwarded (sampleEmail "2" "otherABC@2925.com" 0 false)
        [{ address := "userABC@2925.com", suffix := "ABC", createdAt := 0,
           status := SubEmailStatus.active }] = false
    ∧ ForwardByList.identifyForwardedEmails
        [sampleEmail "1" "userXYZ@2925.com" 5 false,
          sampleEmail "2" "user@2925.com" 3 false]
        [{ address := "userXYZ@2925.com", suffix := "XYZ", createdAt := 0,
           status := SubEmailStatus.active }]
      = [{ sampleEmail "1" "userXYZ@2925.com" 5 false with
            isSubEmailForwarded := true,
            originalSubEmail := some "userXYZ@2925.com" },
         { sampleEmail "2" "user@2925.com" 3 false with
            isSubEmailForwarded := false, originalSubEmail := none }] := by
  refine ⟨?_, by decide, by decide, by decide⟩
  intro emails subEmails y hy
  simp only [ForwardByList.identifyForwardedEmails, List.mem_map] at hy
  obtain ⟨e, _, rfl⟩ := hy
  by_cases hc : (subEmails.map (fun se => lowerStr se.address)).contains
      (lowerStr e.toAddr) = true
  · rw [if_pos hc]
    refine ⟨⟨fun _ => ?_, fun _ => rfl⟩, fun _ => rfl, fun h => ?_⟩
    · obtain ⟨s, hs, hseq⟩ := List.mem_map.mp (List.elem_iff.mp hc)
      exact ⟨s, hs, hseq⟩
    · simp at h
  · rw [if_neg hc]
    refine ⟨⟨fun h => ?_, fun hex => ?_⟩, fun h => ?_, fun _ => rfl⟩
    · simp at h
    · obtain ⟨s, hs, hseq⟩ := hex
      exact absurd (List.elem_iff.mpr (List.mem_map.mpr ⟨s, hs, hseq⟩)) hc
    · simp at h

/-- Witness for C7 at the scenario input. -/
theorem identifyForwardedEmails_list_spec_witness :
    ({ sampleEmail "1" "userXYZ@2925.com" 5 false with
        isSubEmailForwarded := true,
        originalSubEmail := some "userXYZ@2925.com" } : Email).originalSubEmail
      = some "userXYZ@2925.com" :=
  (identifyForwardedEmails_list_spec.1
      [sampleEmail "1" "userXYZ@2925.com" 5 false,
        sampleEmail "2" "user@2925.com" 3 false]
      [{ address := "userXYZ@2925.com", suffix := "XYZ", createdAt := 0,
         status := SubEmailStatus.active }]
      { sampleEmail "1" "userXYZ@2925.com" 5 false with
        isSubEmailForwarded := true,
        originalSubEmail := some "userXYZ@2925.com" } (by decide)).2.1 rfl

end EmailManager

namespace EmailManager

/-- Lowercasing a character yields the at sign only for the at sign itself. -/
theorem lowerChar_at_iff {c : Char} : lowerChar c = '@' ↔ c = '@' := by
  constructor
  · intro h
    unfold lowerChar at h
    split at h <;> first | exact h | exact absurd h (by decide)
  · intro h
    subst h
    rfl

/-- Lowercasing a character list neither creates nor removes at signs. -/
theorem mem_map_lowerChar_at {l : List Char} :
    '@' ∈ l.map lowerChar ↔ '@' ∈ l := by
  simp only [List.mem_map]
  constructor
  · rintro ⟨a, ha, he⟩
    have : a = '@' := lowerChar_at_iff.mp he
    subst this
    exact ha
  · intro h
    exact ⟨'@', h, rfl⟩

/-- The sub-email-format test written as a conjunction of its three conditions. -/
theorem isSubEmailFormat_eq (email bu : String) :
    ForwardByPattern.isSubEmailFormat email bu
      = (strEndsWith (lowerStr email) "@2925.com"
          && List.isPrefixOf (lowerStr bu).toList
              ((lowerStr email).toList.takeWhile (fun c => c ≠ '@'))
          && decide (bu.toList.length
              < ((lowerStr email).toList.takeWhile (fun c => c ≠ '@')).length)) := by
  simp only [ForwardByPattern.isSubEmailFormat]
  cases h1 : strEndsWith (lowerStr email) "@2925.com"
  · simp [h1]
  · simp only [h1, if_true, Bool.true_and]
    cases h2 : List.isPrefixOf (lowerStr bu).toList
        ((lowerStr email).toList.takeWhile (fun c => c ≠ '@'))
    · simp [h2]
    · simp [h2]

/-- C6 counterexample: with base account user at example.com and candidate userX at
example.com, the claimed matching relation (same domain as the base account,
local-part extension) holds, but the code helper rejects the pair because it
hardcodes the domain 2925.com. -/
theorem patternMatches_counterexample :
    claimC6Match "userX@example.com" "user@example.com" = true
    ∧ ForwardByPattern.patternMatches "userX@example.com" "user@example.com"
        = false := by
  constructor
  · decide
  · decide

/-- C6 amended: the pattern-mode helper matches a candidate against a base address
exactly when the base has a nonempty, entirely ASCII-alphanumeric local part, the
lowercased candidate ends with the fixed domain suffix 2925.com, and the candidate
local part (up to the first at sign, case-insensitive) starts with and is strictly
longer than the base local part; for malformed inputs (missing at sign in either
address, or an empty base local part) it returns false, and it is a total function
that never throws. -/
theorem patternMatches_amended :
    (∀ candidate base, ForwardByPattern.patternMatches candidate base
        = claimC6AmendedMatch candidate base)
    ∧ (∀ candidate base, candidate.toList.contains '@' = false →
        ForwardByPattern.patternMatches candidate base = false)
    ∧ (∀ candidate base, base.toList.contains '@' = false →
        ForwardByPattern.patternMatches candidate base = false)
    ∧ (∀ candidate base,
        (base.toList.takeWhile (fun c => c ≠ '@')).isEmpty = true →
        ForwardByPattern.patternMatches candidate base = false) := by
  refine ⟨?_, ?_, ?_, ?_⟩
  · intro candidate base
    cases hb : ForwardByPattern.extractBaseUsername base with
    | none => simp [ForwardByPattern.patternMatches, claimC6AmendedMatch, hb]
    | some bu =>
      simp only [ForwardByPattern.patternMatches, claimC6AmendedMatch, hb]
      exact isSubEmailFormat_eq candidate bu
  · intro candidate base hc
    cases hb : ForwardByPattern.extractBaseUsername base with
    | none => simp [ForwardByPattern.patternMatches, hb]
    | some bu =>
      simp only [ForwardByPattern.patternMatches, hb]
      rw [isSubEmailFormat_eq]
      have hent : strEndsWith (lowerStr candidate) "@2925.com" = false := by
        cases hw : strEndsWith (lowerStr candidate) "@2925.com"
        · rfl
        · exfalso
          have hsfx := List.isSuffixOf_iff_suffix.mp hw
          have hat : '@' ∈ (lowerStr candidate).toList :=
            hsfx.subset (by decide)
          have : '@' ∈ candidate.toList := mem_map_lowerChar_at.mp hat
          have htrue : candidate.toList.contains '@' = true := List.elem_iff.mpr this
          rw [htrue] at hc
          exact Bool.noConfusion hc
      rw [hent]
      rfl
  · intro candidate base hb
    have hnc : ¬ (base.toList.contains '@' = true) := by
      intro h
      rw [h] at hb
      exact Bool.noConfusion hb
    have hex : ForwardByPattern.extractBaseUsername base = none := by
      simp only [ForwardByPattern.extractBaseUsername]
      rw [if_neg hnc]
    simp [ForwardByPattern.patternMatches, hex]
  · intro candidate base hempty
    have hex : ForwardByPattern.extractBaseUsername base = none := by
      simp only [ForwardByPattern.extractBaseUsername]
      by_cases hcontains : base.toList.contains '@' = true
      · rw [if_pos hcontains, if_pos hempty]
      · rw [if_neg hcontains]
    simp [ForwardByPattern.patternMatches, hex]

/-- Witness for C6 amended at concrete inputs: a candidate without an at sign never
matches, and the amended relation agrees with the helper on the test pair userABC
at 2925.com versus user at 2925.com. -/
theorem patternMatches_amended_witness :
    ForwardByPattern.patternMatches "nodomain" "user@2925.com" = false
    ∧ ForwardByPattern.patternMatches "userABC@2925.com" "user@2925.com"
        = claimC6AmendedMatch "userABC@2925.com" "user@2925.com" :=
  ⟨patternMatches_amended.2.1 "nodomain" "user@2925.com" (by decide),
    patternMatches_amended.1 "userABC@2925.com" "user@2925.com"⟩

end EmailManager
